import Mathlib

/-!
Verification of the checkout backend's order-pricing and discount-allocation
logic (`src/back/src/controllers/CheckoutController.js`).

JavaScript numbers are modelled as exact rationals (`ℚ`); `Math.round` is
Mathlib's `round` (round half toward +∞, matching JS for the values that
occur here); `Math.max`/`Math.min` are `max`/`min`.  Fallible steps return
`Except`.  The database and the HTTP/ORM layer are modelled as explicit
state (a `DB` record) threaded through `createOrder`; the Sequelize
transaction is modelled by returning the original `DB` on every failure
path (rollback) and the mutated one only on commit.
-/

namespace Checkout

/-- A catalog product row (the `Product` model). -/
structure Product where
  id : ℤ
  sku : String
  name : String
  active : Bool
  stockManaged : Bool
  stockQuantity : ℚ
  priceCents : ℚ
  weightGrams : ℚ
deriving DecidableEq, Inhabited

/-- The generic `item.id` field of a raw cart line may be a JSON number or a
string (a sku code). -/
inductive JsId where
  | num (n : ℚ)
  | str (s : String)
deriving DecidableEq

/-- A raw cart line as received in the request body.  Absent keys are `none`. -/
structure RawItem where
  productId : Option ℚ
  id : Option JsId
  sku : Option String
  qty : Option ℚ
  quantity : Option ℚ
  price_cents : Option ℚ
deriving DecidableEq, Inhabited

/-- JS truthiness for an optional number: `0` (and absence) is falsy. -/
def truthyQ : Option ℚ → Option ℚ
  | none => none
  | some v => if v = 0 then none else some v

/-- JS truthiness for an optional string: `""` (and absence) is falsy. -/
def truthyStr : Option String → Option String
  | none => none
  | some s => if s = "" then none else some s

/-- JS truthiness for the generic id field. -/
def truthyId : Option JsId → Option JsId
  | none => none
  | some (.num n) => if n = 0 then none else some (.num n)
  | some (.str s) => if s = "" then none else some (.str s)

/-- `a || b` for optional numbers: the first truthy operand. -/
def firstTruthyQ (a b : Option ℚ) : Option ℚ :=
  match truthyQ a with
  | some v => some v
  | none => truthyQ b

/-- `a || b` for optional strings: the first truthy operand. -/
def firstTruthyStr (a b : Option String) : Option String :=
  match truthyStr a with
  | some v => some v
  | none => truthyStr b

/-- `Number(item.qty || item.quantity || 1)`: the first truthy of the two
quantity fields, else the literal `1`.  (`Number` on an already numeric JSON
value is the identity in this model.) -/
def effQty (r : RawItem) : ℚ := (firstTruthyQ r.qty r.quantity).getD 1

/-- `Product.findByPk(v)`: first product whose primary key equals `v`. -/
def findByPk (cat : List Product) (v : ℚ) : Option Product :=
  cat.find? (fun p => decide ((p.id : ℚ) = v))

/-- `Product.findOne({ where: { sku: s } })`. -/
def findBySku (cat : List Product) (s : String) : Option Product :=
  cat.find? (fun p => p.sku == s)

/-- The fallback `Product.findOne({ where: { sku: item.id } })` with the raw
generic id.  A numeric id compared against the string `sku` column is
modelled as never matching. -/
def findBySkuId (cat : List Product) (j : JsId) : Option Product :=
  match j with
  | .str s => findBySku cat s
  | .num _ => none

/-- The product lookup of `resolveItems`, lines 15-28: `productId` first,
then the generic `id` (as a numeric key with a sku fallback; `Number(s)` of a
non-numeric sku string is NaN, so no primary-key lookup is attempted for
string ids), then `sku`. -/
def resolveProduct (cat : List Product) (r : RawItem) : Option Product :=
  match truthyQ r.productId with
  | some v => findByPk cat v
  | none =>
    match truthyId r.id with
    | some (.num n) =>
      match findByPk cat n with
      | some p => some p
      | none => findBySkuId cat (.num n)
    | some (.str s) => findBySkuId cat (.str s)
    | none =>
      match truthyStr r.sku with
      | some s => findBySku cat s
      | none => none

/-- The failure modes of the checkout flow (the distinct thrown messages and
direct error returns of `CheckoutController.js`). -/
inductive CheckoutError where
  | invalidInput
  | productNotFound
  | insufficientStock
  | missingFields
  | addressNotFound
  | couponInvalid
  | paymentFailure
deriving DecidableEq

/-- A resolved cart line (the objects pushed onto `items` in `resolveItems`). -/
structure ResolvedItem where
  product : Product
  qty : ℚ
  unit_price_cents : ℚ
deriving DecidableEq, Inhabited

/-- The `for (const item of rawItems)` loop body of `resolveItems`
(lines 12-40): skip lines whose coerced quantity is not positive, resolve the
product, reject missing/inactive products and insufficient tracked stock,
and collect the resolved lines in order. -/
def resolveLoop (cat : List Product) : List RawItem → Except CheckoutError (List ResolvedItem)
  | [] => .ok []
  | r :: rest =>
    if effQty r ≤ 0 then resolveLoop cat rest
    else
      match resolveProduct cat r with
      | none => .error .productNotFound
      | some p =>
        if p.active = false then .error .productNotFound
        else if p.stockManaged = true ∧ p.stockQuantity < effQty r then .error .insufficientStock
        else
          match resolveLoop cat rest with
          | .error e => .error e
          | .ok xs =>
              .ok ({ product := p, qty := effQty r,
                     unit_price_cents := r.price_cents.getD p.priceCents } :: xs)

/-- `resolveItems` (lines 7-45): rejects an empty input list up front and an
empty result list afterwards with `Itens inválidos.` (`invalidInput`). -/
def resolveItems (cat : List Product) (rawItems : List RawItem) :
    Except CheckoutError (List ResolvedItem) :=
  if rawItems.isEmpty then .error .invalidInput
  else
    match resolveLoop cat rawItems with
    | .error e => .error e
    | .ok [] => .error .invalidInput
    | .ok xs => .ok xs

/-- A payment line item (the `mpItems` entries sent to Mercado Pago):
unit price in decimal major units. -/
structure MPItem where
  title : String
  quantity : ℚ
  currency_id : String
  unit_price : ℚ
deriving DecidableEq, Inhabited

/-- `shippingSelection.name ? "Frete - " + name : "Frete"`. -/
def shipTitle (n : Option String) : String :=
  match truthyStr n with
  | some s => "Frete - " ++ s
  | none => "Frete"

/-- The payment line built for one resolved item (lines 135-140): unit price
converted from minor to major units. -/
def mpOfResolved (it : ResolvedItem) : MPItem :=
  { title := it.product.name, quantity := it.qty, currency_id := "BRL",
    unit_price := it.unit_price_cents / 100 }

/-- The synthetic shipping payment line (lines 142-147). -/
def shipLineOf (shippingCents : ℚ) (shipName : Option String) : MPItem :=
  { title := shipTitle shipName, quantity := 1, currency_id := "BRL",
    unit_price := shippingCents / 100 }

/-- Lines 135-148: one payment line per resolved item (unit price converted
to major units), plus one shipping line when the shipping cost is positive. -/
def buildMpItems (items : List ResolvedItem) (shippingCents : ℚ) (shipName : Option String) :
    List MPItem :=
  (items.map mpOfResolved)
  ++ (if 0 < shippingCents then [shipLineOf shippingCents shipName] else [])

/-- `Math.round(mpItem.unit_price * 100 * mpItem.quantity)` (line 153). -/
def lineTotalCents (it : MPItem) : ℤ := round (it.unit_price * 100 * it.quantity)

/-- `Math.min(itemTotalCents, remainingDiscount)` (line 155). -/
def allocDeduction (it : MPItem) (r : ℚ) : ℚ := min ((lineTotalCents it : ℤ) : ℚ) r

/-- `Math.max(0, Math.round(newTotalCents / mpItem.quantity) / 100)` (line 157). -/
def allocNewPrice (it : MPItem) (r : ℚ) : ℚ :=
  max 0 ((round (((lineTotalCents it : ℤ) - allocDeduction it r) / it.quantity) : ℚ) / 100)

/-- The `mpItems.forEach` discount-allocation loop (lines 150-159), with the
running `remainingDiscount` threaded through the list: lines reached with no
remaining discount, and lines with a non-positive line total, are left
untouched. -/
def allocateItems (r : ℚ) : List MPItem → List MPItem
  | [] => []
  | it :: rest =>
    if r ≤ 0 then it :: allocateItems r rest
    else if lineTotalCents it ≤ 0 then it :: allocateItems r rest
    else
      { it with unit_price := allocNewPrice it r } :: allocateItems (r - allocDeduction it r) rest

/-- Spec-side line subtotal, following the claim's words: `round(unit_price ×
100) × quantity` (to be compared with the code's `lineTotalCents`). -/
def specLineSub (it : MPItem) : ℚ := ((round (it.unit_price * 100) : ℤ) : ℚ) * it.quantity

/-- Spec-side allocation, following the claim's words: for each line with a
positive line subtotal, deduct `min(line subtotal, remaining)`, recompute the
unit price as `round((line subtotal − deduction) / quantity) / 100` floored
at zero, and reduce the remaining discount; once the remaining discount is
zero the deduction is zero. -/
def specNewPrice (it : MPItem) (r : ℚ) : ℚ :=
  max 0 ((round ((specLineSub it - min (specLineSub it) r) / it.quantity) : ℚ) / 100)

/-- Spec-side allocation step by step; see `specNewPrice` for the per-line
price recomputation from the claim's words. -/
def specAllocItems (r : ℚ) : List MPItem → List MPItem
  | [] => []
  | it :: rest =>
    if 0 < specLineSub it then
      { it with unit_price := specNewPrice it r }
        :: specAllocItems (r - min (specLineSub it) r) rest
    else it :: specAllocItems r rest

/-- The sum, over payment lines, of the line subtotal in minor units
(`round(unit_price × 100) × quantity`), as in the spec's tolerance property. -/
def sumMinor (l : List MPItem) : ℚ :=
  (l.map (fun it => ((round (it.unit_price * 100) : ℤ) : ℚ) * it.quantity)).sum

/-- Total quantity across payment lines. -/
def qtySum (l : List MPItem) : ℚ := (l.map (fun it => it.quantity)).sum

/-- A persisted address row (`Address` model, only the fields read here). -/
structure AddressRow where
  id : ℤ
  userId : ℤ
deriving DecidableEq, Inhabited

/-- A persisted order row (`Order.create` of lines 102-115 plus the later
preference attachment). -/
structure OrderRow where
  id : ℤ
  userId : ℤ
  addressId : ℤ
  subtotalCents : ℚ
  shippingCents : ℚ
  discountCents : ℚ
  totalCents : ℚ
  shippingCarrier : Option String
  shippingService : Option String
  shippingEstimateDays : Option ℚ
  mercadoPagoPreferenceId : Option String
deriving DecidableEq

/-- A persisted order-item row (`OrderItem.create` of lines 118-129). -/
structure OrderItemRow where
  orderId : ℤ
  productId : ℤ
  title : String
  sku : String
  quantity : ℚ
  unitPriceCents : ℚ
  weightGrams : ℚ
deriving DecidableEq

/-- The relational store visible to `createOrder`. -/
structure DB where
  products : List Product
  addresses : List AddressRow
  orders : List OrderRow
  orderItems : List OrderItemRow
deriving DecidableEq

/-- The authenticated user (`req.user`). -/
structure User where
  id : ℤ
  email : String
  name : String
  cpf : String
deriving DecidableEq

/-- The client-chosen shipping selection (`req.body.shipping`). -/
structure ShippingSel where
  carrier : Option String
  name : Option String
  service : Option String
  price_cents : Option ℚ
  cost_cents : Option ℚ
  delivery_time_days : Option ℚ
deriving DecidableEq, Inhabited

/-- The order-creation request body. -/
structure Body where
  items : Option (List RawItem)
  address_id : Option ℚ
  shipping : Option ShippingSel
  coupon_code : Option String
deriving DecidableEq

/-- The payer block sent to the payment service. -/
structure Payer where
  email : String
  name : String
  cpf : String
deriving DecidableEq

/-- The payment service's reply. -/
structure Preference where
  preferenceId : String
  initPoint : String
deriving DecidableEq

/-- Modelled from the spec: the coupon evaluator (`couponService`, not under
src/) takes a code and the subtotal and either fails (`CouponInvalid`) or
returns a discount amount; the payment preference creator (`paymentService`,
not under src/) takes the payment lines and the payer and either fails or
returns a preference handle.  Both are request-scoped collaborators passed
in as functions. -/
structure Collab where
  couponDiscount : String → ℚ → Except Unit ℚ
  createPreference : List MPItem → Payer → Except Unit Preference

/-- One recorded call to an external collaborator, in order. -/
inductive ExtCall where
  | couponCall (code : String)
  | paymentCall (payload : List MPItem)
deriving DecidableEq

/-- The HTTP response of `createOrder`. -/
inductive Response where
  | success (orderId : ℤ) (preference_id : String) (init_point : String)
  | failure (status : ℕ) (err : CheckoutError)
deriving DecidableEq

/-- The observable outcome of one `createOrder` request: the response, the
database state after commit or rollback, and the external calls made. -/
structure COResult where
  resp : Response
  db : DB
  calls : List ExtCall
deriving DecidableEq

/-- Modelled from the spec: `ensureFields(req.body, ['items', 'address_id',
'shipping'])` from `utils/validation` (not under src/) reports missing
required fields; modelled as presence of the three keys. -/
def requiredPresent (b : Body) : Bool :=
  b.items.isSome && b.address_id.isSome && b.shipping.isSome

/-- `items.reduce((acc, item) => acc + item.unit_price_cents * item.qty, 0)`
(line 89). -/
def subtotalOf (items : List ResolvedItem) : ℚ :=
  items.foldl (fun acc it => acc + it.unit_price_cents * it.qty) 0

/-- `Number(shippingSelection.price_cents || shippingSelection.cost_cents || 0)`
(line 99), with `req.body.shipping || {}` as the selection. -/
def shipCentsOf (b : Body) : ℚ :=
  (firstTruthyQ (b.shipping.getD default).price_cents (b.shipping.getD default).cost_cents).getD 0

/-- `Math.max(0, subtotalCents + shippingCents - discountCents)` (line 100). -/
def totalCentsOf (subtotal ship discount : ℚ) : ℚ := max 0 (subtotal + ship - discount)

/-- The autoincrement primary key handed out by `Order.create`, modelled as
row count + 1. -/
def nextOrderId (db : DB) : ℤ := (db.orders.length : ℤ) + 1

/-- The order row written by `Order.create` (lines 102-115). -/
def orderRowOf (db : DB) (user : User) (b : Body) (address : AddressRow)
    (subtotal discount : ℚ) : OrderRow :=
  { id := nextOrderId db
    userId := user.id
    addressId := address.id
    subtotalCents := subtotal
    shippingCents := shipCentsOf b
    discountCents := discount
    totalCents := totalCentsOf subtotal (shipCentsOf b) discount
    shippingCarrier := truthyStr (b.shipping.getD default).carrier
    shippingService := firstTruthyStr (b.shipping.getD default).name (b.shipping.getD default).service
    shippingEstimateDays := truthyQ (b.shipping.getD default).delivery_time_days
    mercadoPagoPreferenceId := none }

/-- The order-item row written for one resolved item (lines 118-129). -/
def orderItemRowOf (oid : ℤ) (it : ResolvedItem) : OrderItemRow :=
  { orderId := oid, productId := it.product.id, title := it.product.name,
    sku := it.product.sku, quantity := it.qty, unitPriceCents := it.unit_price_cents,
    weightGrams := it.product.weightGrams }

/-- `product.decrement('stockQuantity', { by: qty })`. -/
def decrementStock (ps : List Product) (pid : ℤ) (q : ℚ) : List Product :=
  ps.map (fun p => if p.id = pid then { p with stockQuantity := p.stockQuantity - q } else p)

/-- The `for (const item of items)` persistence loop (lines 117-133): append
one order-item row per resolved item and decrement tracked stock. -/
def persistItems (db : DB) (oid : ℤ) : List ResolvedItem → DB
  | [] => db
  | it :: rest =>
      persistItems
        (if it.product.stockManaged then
          { db with orderItems := db.orderItems ++ [orderItemRowOf oid it],
                    products := decrementStock db.products it.product.id it.qty }
        else { db with orderItems := db.orderItems ++ [orderItemRowOf oid it] })
        oid rest

/-- `order.update({ mercadoPagoPreferenceId })` (lines 171-176). -/
def setPreferenceRow (oid : ℤ) (pid : String) (o : OrderRow) : OrderRow :=
  if o.id = oid then { o with mercadoPagoPreferenceId := some pid } else o

/-- `order.update({ mercadoPagoPreferenceId })` over the orders table. -/
def setPreference (db : DB) (oid : ℤ) (pid : String) : DB :=
  { db with orders := db.orders.map (setPreferenceRow oid pid) }

/-- The payment lines built by `createOrder` before discount allocation. -/
def mpItemsOf (items : List ResolvedItem) (b : Body) : List MPItem :=
  buildMpItems items (shipCentsOf b) (b.shipping.getD default).name

/-- The payment lines actually submitted: allocation runs only when
`discountCents > 0 && mpItems.length` (line 149). -/
def mpFinalOf (items : List ResolvedItem) (b : Body) (discount : ℚ) : List MPItem :=
  if 0 < discount ∧ mpItemsOf items b ≠ [] then allocateItems discount (mpItemsOf items b)
  else mpItemsOf items b

/-- The payer block (lines 164-168). -/
def payerOf (u : User) : Payer := { email := u.email, name := u.name, cpf := u.cpf }

/-- The external coupon call made when `req.body.coupon_code` is truthy. -/
def couponCalls (b : Body) : List ExtCall :=
  match truthyStr b.coupon_code with
  | some code => [.couponCall code]
  | none => []

/-- Lines 91-96: no coupon code means a zero discount with no external call;
otherwise the coupon evaluator decides. -/
def couponResult (c : Collab) (b : Body) (subtotal : ℚ) : Except Unit ℚ :=
  match truthyStr b.coupon_code with
  | some code => c.couponDiscount code subtotal
  | none => .ok 0

/-- The committed database state: order row, order-item rows, stock
decrements, and the attached payment preference id. -/
def commitDb (db : DB) (row : OrderRow) (items : List ResolvedItem) (pid : String) : DB :=
  setPreference (persistItems { db with orders := db.orders ++ [row] } row.id items) row.id pid

/-- The tail of `createOrder` after the discount is known: build and allocate
the payment lines, call the payment service, and either roll back (failure)
or commit (success). -/
def afterDiscount (c : Collab) (db : DB) (user : User) (b : Body)
    (items : List ResolvedItem) (address : AddressRow) (subtotal discount : ℚ)
    (calls : List ExtCall) : COResult :=
  match c.createPreference (mpFinalOf items b discount) (payerOf user) with
  | .error _ =>
      { resp := .failure 400 .paymentFailure, db := db,
        calls := calls ++ [.paymentCall (mpFinalOf items b discount)] }
  | .ok pref =>
      { resp := .success (nextOrderId db) pref.preferenceId pref.initPoint,
        db := commitDb db (orderRowOf db user b address subtotal discount) items pref.preferenceId,
        calls := calls ++ [.paymentCall (mpFinalOf items b discount)] }

/-- `Address.findOne({ where: { id: req.body.address_id, userId: req.user.id } })`
(line 84). -/
def findAddress (db : DB) (b : Body) (user : User) : Option AddressRow :=
  db.addresses.find? (fun a => decide ((a.id : ℚ) = b.address_id.getD 0) && decide (a.userId = user.id))

/-- `createOrder` (lines 75-188): field validation, item resolution, address
ownership check, coupon evaluation, pricing, persistence, discount
allocation, payment preference creation; every failure path rolls the
transaction back (the original `db` is returned). -/
def createOrder (c : Collab) (db : DB) (user : User) (b : Body) : COResult :=
  if requiredPresent b = false then { resp := .failure 400 .missingFields, db := db, calls := [] }
  else
    match resolveItems db.products (b.items.getD []) with
    | .error e => { resp := .failure 400 e, db := db, calls := [] }
    | .ok items =>
      match findAddress db b user with
      | none => { resp := .failure 404 .addressNotFound, db := db, calls := [] }
      | some address =>
        match couponResult c b (subtotalOf items) with
        | .error _ => { resp := .failure 400 .couponInvalid, db := db, calls := couponCalls b }
        | .ok discount =>
            afterDiscount c db user b items address (subtotalOf items) discount (couponCalls b)

/-- A rational that is an integer (denominator 1). -/
def IsIntQ (x : ℚ) : Prop := x.den = 1

instance (x : ℚ) : Decidable (IsIntQ x) := inferInstanceAs (Decidable (x.den = 1))

/-- A payment line whose unit price is an integer number of minor units and
whose quantity is a positive integer. -/
def GoodMP (it : MPItem) : Prop :=
  IsIntQ (it.unit_price * 100) ∧ IsIntQ it.quantity ∧ 0 < it.quantity

/-- A `GoodMP` line with a nonnegative unit price. -/
def GoodMPnn (it : MPItem) : Prop := GoodMP it ∧ 0 ≤ it.unit_price

/-- A cart whose resolved lines carry integer minor-unit prices and positive
integer quantities. -/
def GoodCart (items : List ResolvedItem) : Prop :=
  ∀ it ∈ items, IsIntQ it.unit_price_cents ∧ IsIntQ it.qty ∧ 0 < it.qty

instance (items : List ResolvedItem) : Decidable (GoodCart items) := by
  unfold GoodCart; infer_instance

instance (it : MPItem) : Decidable (GoodMP it) := by
  unfold GoodMP; infer_instance

instance (it : MPItem) : Decidable (GoodMPnn it) := by
  unfold GoodMPnn; infer_instance

/-! Concrete request data used by the witnesses and counterexamples below. -/

def prodA : Product :=
  { id := 1, sku := "A", name := "Produto A", active := true, stockManaged := true,
    stockQuantity := 5, priceCents := 1000, weightGrams := 100 }

def prodTen : Product :=
  { id := 2, sku := "B", name := "Produto B", active := true, stockManaged := false,
    stockQuantity := 0, priceCents := 100, weightGrams := 0 }

def prodOff : Product :=
  { id := 3, sku := "C", name := "Produto C", active := false, stockManaged := false,
    stockQuantity := 0, priceCents := 100, weightGrams := 0 }

def rawLineA : RawItem :=
  { productId := none, id := none, sku := some "A", qty := some 2, quantity := none,
    price_cents := some 1000 }

def rawHalfQty : RawItem :=
  { productId := none, id := none, sku := some "A", qty := some (mkRat 5 2), quantity := none,
    price_cents := none }

def rawNoQty : RawItem :=
  { productId := none, id := none, sku := some "A", qty := none, quantity := none,
    price_cents := none }

def rawZeroQty : RawItem :=
  { productId := none, id := none, sku := some "A", qty := some 0, quantity := none,
    price_cents := none }

def itemHalf : ResolvedItem := { product := prodA, qty := mkRat 5 2, unit_price_cents := 1000 }

def mpLines : List MPItem := [{ title := "L1", quantity := 2, currency_id := "BRL", unit_price := 10 }]

def mpTenLine : MPItem :=
  { title := "Produto B", quantity := 10, currency_id := "BRL", unit_price := 1 }

def mpTenLineAfter : MPItem :=
  { title := "Produto B", quantity := 10, currency_id := "BRL", unit_price := 99 / 100 }

def rawBigQty : RawItem :=
  { productId := none, id := none, sku := some "A", qty := some 9, quantity := none,
    price_cents := none }

def rawOff : RawItem :=
  { productId := none, id := none, sku := some "C", qty := some 1, quantity := none,
    price_cents := none }

def selFast : ShippingSel :=
  { carrier := some "Correios", name := some "Sedex", service := none,
    price_cents := some 500, cost_cents := none, delivery_time_days := some 3 }

def selNone : ShippingSel :=
  { carrier := none, name := none, service := none, price_cents := none, cost_cents := none,
    delivery_time_days := none }

def bodyMain : Body :=
  { items := some [rawLineA], address_id := some 7, shipping := some selFast,
    coupon_code := some "CUP" }

def bodyEmptyItems : Body :=
  { items := some [], address_id := some 7, shipping := some selNone, coupon_code := none }

def itemsMain : List ResolvedItem := [{ product := prodA, qty := 2, unit_price_cents := 1000 }]

def itemsTen : List ResolvedItem := [{ product := prodTen, qty := 10, unit_price_cents := 100 }]

def userMain : User := { id := 1, email := "u@e", name := "U", cpf := "0" }

def collabOk : Collab :=
  { couponDiscount := fun _ _ => .ok 300,
    createPreference := fun _ _ => .ok { preferenceId := "pref1", initPoint := "ip" } }

def collabPayFail : Collab :=
  { couponDiscount := fun _ _ => .ok 300, createPreference := fun _ _ => .error () }

def dbOwned : DB :=
  { products := [prodA], addresses := [{ id := 7, userId := 1 }], orders := [], orderItems := [] }

def dbForeign : DB :=
  { products := [prodA], addresses := [{ id := 7, userId := 99 }], orders := [], orderItems := [] }

/-! Helper lemmas. -/

theorem resolveLoop_qty_pos (cat : List Product) :
    ∀ (raws : List RawItem) (ris : List ResolvedItem),
      resolveLoop cat raws = .ok ris → ∀ x ∈ ris, 0 < x.qty := by
  intro raws
  induction raws with
  | nil =>
    intro ris h x hx
    simp only [resolveLoop] at h
    cases h
    simp at hx
  | cons r rest ih =>
    intro ris h x hx
    rw [resolveLoop] at h
    split at h
    · exact ih ris h x hx
    · rename_i hq
      split at h
      · cases h
      · split at h
        · cases h
        · split at h
          · cases h
          · split at h
            · cases h
            · rename_i p hp ha hs xs hr
              cases h
              rcases List.mem_cons.mp hx with hhd | htl
              · subst hhd
                exact lt_of_not_le hq
              · exact ih xs hr x htl

theorem resolveLoop_skip (cat : List Product) (r : RawItem) (rest : List RawItem)
    (hq : effQty r ≤ 0) : resolveLoop cat (r :: rest) = resolveLoop cat rest := by
  rw [resolveLoop, if_pos hq]

theorem resolveItems_qty_pos (cat : List Product) (raws : List RawItem)
    (ris : List ResolvedItem) (h : resolveItems cat raws = .ok ris) :
    ∀ x ∈ ris, 0 < x.qty := by
  unfold resolveItems at h
  split at h
  · cases h
  · split at h
    · cases h
    · cases h
    · rename_i y ys hr
      cases h
      exact resolveLoop_qty_pos cat raws _ hr

/-- C4 (corrected): in `resolveItems`, a missing quantity defaults to 1; a
literal `0` quantity is falsy under `||` and also falls back (to the next
field or to 1) instead of being skipped; the coerced quantity is a number but
not necessarily an integer; entries whose coerced quantity is not positive
are skipped; and every resolved item has (possibly fractional) quantity > 0. -/
theorem c4_quantity_amended :
    (∀ r : RawItem, r.qty = none → r.quantity = none → effQty r = 1)
    ∧ (∀ r : RawItem, r.qty = some 0 → r.quantity = none → effQty r = 1)
    ∧ (∀ (cat : List Product) (r : RawItem) (rest : List RawItem), effQty r ≤ 0 →
        resolveLoop cat (r :: rest) = resolveLoop cat rest)
    ∧ (∀ (cat : List Product) (raws : List RawItem) (ris : List ResolvedItem),
        resolveItems cat raws = .ok ris → ∀ x ∈ ris, 0 < x.qty) := by
  refine ⟨?_, ?_, resolveLoop_skip, resolveItems_qty_pos⟩
  · intro r h1 h2
    simp [effQty, firstTruthyQ, truthyQ, h1, h2]
  · intro r h1 h2
    simp [effQty, firstTruthyQ, truthyQ, h1, h2]

/-- Witness for C4's amended statement at concrete inputs. -/
theorem c4_quantity_amended_witness :
    effQty rawNoQty = 1
    ∧ effQty rawZeroQty = 1
    ∧ resolveItems [prodA] [rawHalfQty] = .ok [itemHalf]
    ∧ 0 < itemHalf.qty := by
  refine ⟨c4_quantity_amended.1 _ rfl rfl, c4_quantity_amended.2.1 _ rfl rfl, by rfl, ?_⟩
  exact c4_quantity_amended.2.2.2 [prodA] [rawHalfQty] [itemHalf] (by rfl) itemHalf (by simp)

/-- Counterexample to C4 as stated: the cart line `{sku: "A", qty: 2.5}` is
not skipped and resolves with the non-integer quantity 5/2 (JS `Number` does
not coerce to an integer), refuting "every ResolvedItem has integer
quantity > 0". -/
theorem c4_quantity_counterexample :
    resolveItems [prodA] [rawHalfQty] = .ok [itemHalf] ∧ ¬ IsIntQ itemHalf.qty := by
  exact ⟨by rfl, by decide⟩

/-- C5: the discount-allocation loop never turns a nonnegative unit price
negative: every reallocated price is `max 0 (...)` and untouched lines keep
their price. -/
theorem c5_no_negative_price (d : ℚ) (l : List MPItem) (i : ℕ)
    (h : 0 ≤ (l.getD i default).unit_price) :
    0 ≤ ((allocateItems d l).getD i default).unit_price := by
  induction l generalizing d i with
  | nil => simpa [allocateItems] using h
  | cons it rest ih =>
    rw [allocateItems]
    by_cases hr : d ≤ 0
    · rw [if_pos hr]
      cases i with
      | zero => simpa using h
      | succ n => exact ih d n (by simpa using h)
    · rw [if_neg hr]
      by_cases hl : lineTotalCents it ≤ 0
      · rw [if_pos hl]
        cases i with
        | zero => simpa using h
        | succ n => exact ih d n (by simpa using h)
      · rw [if_neg hl]
        cases i with
        | zero =>
          simp only [List.getD_cons_zero]
          exact le_max_left 0 _
        | succ n => exact ih _ n (by simpa using h)

/-- Witness for C5 at a concrete line list. -/
theorem c5_no_negative_price_witness :
    0 ≤ ((allocateItems 300 mpLines).getD 0 default).unit_price :=
  c5_no_negative_price 300 mpLines 0 (by decide)

theorem resolveLoop_ne_invalidInput (cat : List Product) :
    ∀ raws : List RawItem, resolveLoop cat raws ≠ .error .invalidInput := by
  intro raws
  induction raws with
  | nil => simp [resolveLoop]
  | cons r rest ih =>
    rw [resolveLoop]
    split
    · exact ih
    · split
      · simp
      · split
        · simp
        · split
          · simp
          · split
            · rename_i e he
              intro hcon
              apply ih
              rw [he]
              injection hcon with h2
              rw [h2]
            · simp

theorem resolveLoop_ok_nil_iff (cat : List Product) (raws : List RawItem) :
    resolveLoop cat raws = .ok [] ↔ ∀ r ∈ raws, effQty r ≤ 0 := by
  induction raws with
  | nil => simp [resolveLoop]
  | cons r rest ih =>
    rw [resolveLoop]
    by_cases hq : effQty r ≤ 0
    · rw [if_pos hq, ih]
      constructor
      · intro h x hx
        rcases List.mem_cons.mp hx with rfl | hx'
        · exact hq
        · exact h x hx'
      · intro h x hx
        exact h x (List.mem_cons_of_mem r hx)
    · rw [if_neg hq]
      constructor
      · intro h
        exfalso
        split at h
        · cases h
        · split at h
          · cases h
          · split at h
            · cases h
            · split at h
              · cases h
              · simp at h
      · intro h
        exact absurd (h r (List.mem_cons_self r rest)) hq

/-- C6: `resolveItems` fails with `InvalidInput` exactly when the input list
is empty or no line has a usable (positive) quantity; and for an empty items
array, `createOrder` fails with `InvalidInput` having made no call to any
external collaborator (the shipping quoter is never called by `createOrder`
at all, and the recorded coupon/payment call list is empty). -/
theorem c6_invalid_input :
    (∀ (cat : List Product) (raws : List RawItem),
      resolveItems cat raws = .error .invalidInput ↔ (raws = [] ∨ ∀ r ∈ raws, effQty r ≤ 0))
    ∧ (∀ (c : Collab) (db : DB) (u : User) (b : Body), b.items = some [] →
        requiredPresent b = true →
        (createOrder c db u b).resp = .failure 400 .invalidInput
          ∧ (createOrder c db u b).calls = []) := by
  constructor
  · intro cat raws
    unfold resolveItems
    by_cases he : raws.isEmpty
    · rw [if_pos he]
      have : raws = [] := by
        cases raws with
        | nil => rfl
        | cons a l => cases he
      subst this
      simp
    · rw [if_neg he]
      have hne : raws ≠ [] := by
        intro hcon
        subst hcon
        exact he rfl
      constructor
      · intro h
        right
        split at h
        · rename_i e heq
          exfalso
          apply resolveLoop_ne_invalidInput cat raws
          rw [heq]
          injection h with h2
          rw [h2]
        · rename_i heq
          exact (resolveLoop_ok_nil_iff cat raws).mp heq
        · cases h
      · intro h
        rcases h with rfl | hall
        · exact absurd rfl hne
        · rw [(resolveLoop_ok_nil_iff cat raws).mpr hall]
  · intro c db u b hitems hreq
    have hres : resolveItems db.products (b.items.getD []) = .error .invalidInput := by
      rw [hitems]
      rfl
    constructor <;> simp [createOrder, hreq, hres]

/-- Witness for C6 at concrete inputs: the empty cart. -/
theorem c6_invalid_input_witness :
    resolveItems ([] : List Product) ([] : List RawItem) = .error .invalidInput
    ∧ (createOrder collabOk dbOwned userMain bodyEmptyItems).resp = .failure 400 .invalidInput
    ∧ (createOrder collabOk dbOwned userMain bodyEmptyItems).calls = [] := by
  refine ⟨(c6_invalid_input.1 [] []).mpr (Or.inl rfl), ?_, ?_⟩
  · exact (c6_invalid_input.2 collabOk dbOwned userMain bodyEmptyItems rfl rfl).1
  · exact (c6_invalid_input.2 collabOk dbOwned userMain bodyEmptyItems rfl rfl).2

/-- C7: a non-skipped line whose product is missing or inactive makes the
resolver fail with `ProductNotFound`; a tracked product with stock below the
requested quantity makes it fail with `InsufficientStock`; and any resolver
failure makes `createOrder` respond with that error having written no order
row and decremented no stock (the database is unchanged) and made no
external call. -/
theorem c7_resolution_failures :
    (∀ (cat : List Product) (r : RawItem) (rest : List RawItem), 0 < effQty r →
        resolveProduct cat r = none →
        resolveLoop cat (r :: rest) = .error .productNotFound)
    ∧ (∀ (cat : List Product) (r : RawItem) (rest : List RawItem) (p : Product), 0 < effQty r →
        resolveProduct cat r = some p → p.active = false →
        resolveLoop cat (r :: rest) = .error .productNotFound)
    ∧ (∀ (cat : List Product) (r : RawItem) (rest : List RawItem) (p : Product), 0 < effQty r →
        resolveProduct cat r = some p → p.active = true → p.stockManaged = true →
        p.stockQuantity < effQty r →
        resolveLoop cat (r :: rest) = .error .insufficientStock)
    ∧ (∀ (c : Collab) (db : DB) (u : User) (b : Body) (e : CheckoutError),
        requiredPresent b = true →
        resolveItems db.products (b.items.getD []) = .error e →
        (createOrder c db u b).resp = .failure 400 e ∧ (createOrder c db u b).db = db
          ∧ (createOrder c db u b).calls = []) := by
  refine ⟨?_, ?_, ?_, ?_⟩
  · intro cat r rest hq hp
    simp [resolveLoop, not_le.mpr hq, hp]
  · intro cat r rest p hq hp ha
    simp [resolveLoop, not_le.mpr hq, hp, ha]
  · intro cat r rest p hq hp ha hsm hst
    simp [resolveLoop, not_le.mpr hq, hp, ha, hsm, hst]
  · intro c db u b e hreq hres
    refine ⟨?_, ?_, ?_⟩ <;> simp [createOrder, hreq, hres]

/-- Witness for C7 at concrete inputs: unknown sku, inactive product,
insufficient tracked stock, and an unchanged database on a resolver failure. -/
theorem c7_resolution_failures_witness :
    resolveLoop [prodA] [rawOff] = .error .productNotFound
    ∧ resolveLoop [prodOff] [rawOff] = .error .productNotFound
    ∧ resolveLoop [prodA] [rawBigQty] = .error .insufficientStock
    ∧ (createOrder collabOk dbOwned userMain bodyEmptyItems).db = dbOwned := by
  refine ⟨?_, ?_, ?_, ?_⟩
  · exact c7_resolution_failures.1 [prodA] rawOff [] (by decide) (by rfl)
  · exact c7_resolution_failures.2.1 [prodOff] rawOff [] prodOff (by decide) (by rfl) (by rfl)
  · exact c7_resolution_failures.2.2.1 [prodA] rawBigQty [] prodA (by decide) (by rfl) (by rfl)
      (by rfl) (by decide)
  · exact (c7_resolution_failures.2.2.2 collabOk dbOwned userMain bodyEmptyItems .invalidInput
      rfl (by rfl)).2.1

theorem persistItems_orders (oid : ℤ) :
    ∀ (its : List ResolvedItem) (db : DB), (persistItems db oid its).orders = db.orders := by
  intro its
  induction its with
  | nil => intro db; rfl
  | cons it rest ih =>
    intro db
    rw [persistItems, ih]
    split <;> rfl

theorem persistItems_orderItems (oid : ℤ) :
    ∀ (its : List ResolvedItem) (db : DB),
      (persistItems db oid its).orderItems = db.orderItems ++ its.map (orderItemRowOf oid) := by
  intro its
  induction its with
  | nil => intro db; simp [persistItems]
  | cons it rest ih =>
    intro db
    rw [persistItems, ih]
    split <;> simp

/-- Exhaustive case analysis of `createOrder`: either some step failed and
the response is an error with the database rolled back untouched, or every
step succeeded and the result is the committed record. -/
theorem createOrder_cases (c : Collab) (db : DB) (u : User) (b : Body) :
    (∃ (e : CheckoutError) (s : ℕ),
      (createOrder c db u b).resp = .failure s e ∧ (createOrder c db u b).db = db)
    ∨ (∃ (items : List ResolvedItem) (address : AddressRow) (discount : ℚ) (pref : Preference),
        requiredPresent b = true
        ∧ resolveItems db.products (b.items.getD []) = .ok items
        ∧ findAddress db b u = some address
        ∧ couponResult c b (subtotalOf items) = .ok discount
        ∧ c.createPreference (mpFinalOf items b discount) (payerOf u) = .ok pref
        ∧ createOrder c db u b = {
            resp := .success (nextOrderId db) pref.preferenceId pref.initPoint,
            db := commitDb db (orderRowOf db u b address (subtotalOf items) discount) items
              pref.preferenceId,
            calls := couponCalls b ++ [.paymentCall (mpFinalOf items b discount)] }) := by
  unfold createOrder
  split
  · exact Or.inl ⟨.missingFields, 400, rfl, rfl⟩
  · rename_i hreqf
    have hreq : requiredPresent b = true := by
      revert hreqf
      cases requiredPresent b <;> simp
    split
    · rename_i e he
      exact Or.inl ⟨e, 400, rfl, rfl⟩
    · rename_i items hres
      split
      · exact Or.inl ⟨.addressNotFound, 404, rfl, rfl⟩
      · rename_i address haddr
        split
        · exact Or.inl ⟨.couponInvalid, 400, rfl, rfl⟩
        · rename_i discount hcoup
          unfold afterDiscount
          split
          · exact Or.inl ⟨.paymentFailure, 400, rfl, rfl⟩
          · rename_i pref hpref
            exact Or.inr ⟨items, address, discount, pref, hreq, hres, haddr, hcoup, hpref, rfl⟩

theorem createOrder_rollback (c : Collab) (db : DB) (u : User) (b : Body) (s : ℕ)
    (e : CheckoutError) (h : (createOrder c db u b).resp = .failure s e) :
    (createOrder c db u b).db = db := by
  rcases createOrder_cases c db u b with ⟨e', s', _, hdb⟩ | ⟨_, _, _, _, _, _, _, _, _, heq⟩
  · exact hdb
  · rw [heq] at h
    cases h

/-- C8: every failing `createOrder` request leaves the database exactly as it
was (full rollback: no order row, no order-item rows, no stock decrement),
and every successful one has called the payment preference creator
successfully on the submitted payment lines and persisted the order together
with the returned preference id. -/
theorem c8_rollback_and_commit (c : Collab) (db : DB) (u : User) (b : Body) :
    (∀ (s : ℕ) (e : CheckoutError), (createOrder c db u b).resp = .failure s e →
        (createOrder c db u b).db = db)
    ∧ (∀ (oid : ℤ) (pid ip : String), (createOrder c db u b).resp = .success oid pid ip →
        ∃ (mp : List MPItem) (pref : Preference),
          c.createPreference mp (payerOf u) = .ok pref ∧ pref.preferenceId = pid
          ∧ ExtCall.paymentCall mp ∈ (createOrder c db u b).calls
          ∧ ∃ o ∈ (createOrder c db u b).db.orders,
              o.id = oid ∧ o.mercadoPagoPreferenceId = some pid) := by
  constructor
  · intro s e h
    exact createOrder_rollback c db u b s e h
  · intro oid pid ip h
    rcases createOrder_cases c db u b with ⟨e', s', hr, _⟩ |
      ⟨items, address, discount, pref, hreq, hres, haddr, hcoup, hpref, heq⟩
    · rw [hr] at h
      cases h
    · rw [heq] at h
      simp only [Response.success.injEq] at h
      obtain ⟨h1, h2, h3⟩ := h
      refine ⟨mpFinalOf items b discount, pref, hpref, h2, ?_, ?_⟩
      · rw [heq]
        simp
      · have hrowid : (orderRowOf db u b address (subtotalOf items) discount).id
            = nextOrderId db := rfl
        have horders : (createOrder c db u b).db.orders
            = (db.orders ++ [orderRowOf db u b address (subtotalOf items) discount]).map
                (setPreferenceRow (nextOrderId db) pref.preferenceId) := by
          rw [heq]
          show (commitDb db _ items pref.preferenceId).orders = _
          unfold commitDb setPreference
          rw [persistItems_orders]
          rfl
        refine ⟨setPreferenceRow (nextOrderId db) pref.preferenceId
          (orderRowOf db u b address (subtotalOf items) discount), ?_, ?_, ?_⟩
        · rw [horders]
          exact List.mem_map_of_mem _ (by simp)
        · unfold setPreferenceRow
          rw [if_pos hrowid]
          exact h1 ▸ hrowid
        · unfold setPreferenceRow
          rw [if_pos hrowid, ← h2]

/-- Witness for C8 at concrete inputs: a payment service that always fails
leaves the database unchanged, and a successful run persists the order with
its preference id. -/
theorem c8_rollback_and_commit_witness :
    (createOrder collabPayFail dbOwned userMain bodyMain).db = dbOwned
    ∧ ∃ (mp : List MPItem) (pref : Preference),
        collabOk.createPreference mp (payerOf userMain) = .ok pref ∧ pref.preferenceId = "pref1"
        ∧ ExtCall.paymentCall mp ∈ (createOrder collabOk dbOwned userMain bodyMain).calls
        ∧ ∃ o ∈ (createOrder collabOk dbOwned userMain bodyMain).db.orders,
            o.id = 1 ∧ o.mercadoPagoPreferenceId = some "pref1" := by
  constructor
  · exact (c8_rollback_and_commit collabPayFail dbOwned userMain bodyMain).1 400
      .paymentFailure (by rfl)
  · exact (c8_rollback_and_commit collabOk dbOwned userMain bodyMain).2 1 "pref1" "ip" (by rfl)

theorem isIntQ_iff (x : ℚ) : IsIntQ x ↔ ∃ n : ℤ, x = (n : ℚ) := by
  unfold IsIntQ
  rw [Rat.den_eq_one_iff]
  constructor
  · intro h
    exact ⟨x.num, h.symm⟩
  · rintro ⟨n, rfl⟩
    simp

theorem isIntQ_intCast (n : ℤ) : IsIntQ ((n : ℚ)) := (isIntQ_iff _).mpr ⟨n, rfl⟩

theorem isIntQ_zero : IsIntQ (0 : ℚ) := by decide

theorem isIntQ_add {x y : ℚ} (hx : IsIntQ x) (hy : IsIntQ y) : IsIntQ (x + y) := by
  obtain ⟨n, rfl⟩ := (isIntQ_iff x).mp hx
  obtain ⟨m, rfl⟩ := (isIntQ_iff y).mp hy
  exact (isIntQ_iff _).mpr ⟨n + m, by push_cast; ring⟩

theorem isIntQ_sub {x y : ℚ} (hx : IsIntQ x) (hy : IsIntQ y) : IsIntQ (x - y) := by
  obtain ⟨n, rfl⟩ := (isIntQ_iff x).mp hx
  obtain ⟨m, rfl⟩ := (isIntQ_iff y).mp hy
  exact (isIntQ_iff _).mpr ⟨n - m, by push_cast; ring⟩

theorem isIntQ_mul {x y : ℚ} (hx : IsIntQ x) (hy : IsIntQ y) : IsIntQ (x * y) := by
  obtain ⟨n, rfl⟩ := (isIntQ_iff x).mp hx
  obtain ⟨m, rfl⟩ := (isIntQ_iff y).mp hy
  exact (isIntQ_iff _).mpr ⟨n * m, by push_cast; ring⟩

theorem isIntQ_max_zero {x : ℚ} (hx : IsIntQ x) : IsIntQ (max 0 x) := by
  obtain ⟨n, rfl⟩ := (isIntQ_iff x).mp hx
  refine (isIntQ_iff _).mpr ⟨max 0 n, ?_⟩
  rw [Int.cast_max]
  simp

theorem isIntQ_sum_prices (items : List ResolvedItem) (h : GoodCart items) :
    IsIntQ ((items.map (fun it => it.unit_price_cents * it.qty)).sum) := by
  induction items with
  | nil => simpa using isIntQ_zero
  | cons it rest ih =>
    rw [List.map_cons, List.sum_cons]
    have hit := h it (List.mem_cons_self it rest)
    exact isIntQ_add (isIntQ_mul hit.1 hit.2.1)
      (ih (fun x hx => h x (List.mem_cons_of_mem it hx)))

theorem foldl_add_sum {α : Type} (f : α → ℚ) :
    ∀ (l : List α) (a : ℚ), List.foldl (fun acc x => acc + f x) a l = a + (l.map f).sum := by
  intro l
  induction l with
  | nil => intro a; simp
  | cons x rest ih =>
    intro a
    rw [List.foldl_cons, ih, List.map_cons, List.sum_cons]
    ring

theorem subtotalOf_eq (items : List ResolvedItem) :
    subtotalOf items = (items.map (fun it => it.unit_price_cents * it.qty)).sum := by
  unfold subtotalOf
  rw [foldl_add_sum]
  ring

/-- C1: whenever `createOrder` succeeds on a cart whose items resolve, the
persisted order carries `subtotal = Σ (unit price × quantity)` over the
resolved items and `grand total = max(0, subtotal + shipping − discount)`;
when the cart prices and quantities, the shipping cost, and the discount are
integers, both stored totals are integers (minor currency units). -/
theorem c1_order_totals (c : Collab) (db : DB) (u : User) (b : Body)
    (ris : List ResolvedItem) (oid : ℤ) (pid ip : String)
    (hres : resolveItems db.products (b.items.getD []) = .ok ris)
    (hok : (createOrder c db u b).resp = .success oid pid ip) :
    ∃ o ∈ (createOrder c db u b).db.orders,
      o.id = oid
      ∧ o.subtotalCents = (ris.map (fun it => it.unit_price_cents * it.qty)).sum
      ∧ o.shippingCents = shipCentsOf b
      ∧ o.totalCents = max 0 (o.subtotalCents + o.shippingCents - o.discountCents)
      ∧ (GoodCart ris → IsIntQ o.shippingCents → IsIntQ o.discountCents →
          IsIntQ o.subtotalCents ∧ IsIntQ o.totalCents) := by
  rcases createOrder_cases c db u b with ⟨e', s', hr, _⟩ |
    ⟨items, address, discount, pref, hreq, hres', haddr, hcoup, hpref, heq⟩
  · rw [hr] at hok
    cases hok
  · rw [hres] at hres'
    injection hres' with hitems
    subst hitems
    rw [heq] at hok
    simp only [Response.success.injEq] at hok
    obtain ⟨h1, h2, h3⟩ := hok
    have hrowid : (orderRowOf db u b address (subtotalOf ris) discount).id = nextOrderId db := rfl
    have horders : (createOrder c db u b).db.orders
        = (db.orders ++ [orderRowOf db u b address (subtotalOf ris) discount]).map
            (setPreferenceRow (nextOrderId db) pref.preferenceId) := by
      rw [heq]
      show (commitDb db _ ris pref.preferenceId).orders = _
      unfold commitDb setPreference
      rw [persistItems_orders]
      rfl
    refine ⟨setPreferenceRow (nextOrderId db) pref.preferenceId
      (orderRowOf db u b address (subtotalOf ris) discount), ?_, ?_, ?_, ?_, ?_, ?_⟩
    · rw [horders]
      exact List.mem_map_of_mem _ (by simp)
    · unfold setPreferenceRow
      rw [if_pos hrowid]
      exact h1
    · unfold setPreferenceRow
      rw [if_pos hrowid]
      exact subtotalOf_eq ris
    · unfold setPreferenceRow
      rw [if_pos hrowid]
      rfl
    · unfold setPreferenceRow
      rw [if_pos hrowid]
      rfl
    · unfold setPreferenceRow
      rw [if_pos hrowid]
      intro hg hship hdisc
      have hsub : IsIntQ (subtotalOf ris) := by
        rw [subtotalOf_eq]
        exact isIntQ_sum_prices ris hg
      refine ⟨hsub, ?_⟩
      show IsIntQ (totalCentsOf (subtotalOf ris) (shipCentsOf b) discount)
      unfold totalCentsOf
      exact isIntQ_max_zero (isIntQ_sub (isIntQ_add hsub hship) hdisc)

/-- Witness for C1 at the spec's own scenario (2 × 10.00 + 5.00 shipping,
3.00 discount). -/
theorem c1_order_totals_witness :
    ∃ o ∈ (createOrder collabOk dbOwned userMain bodyMain).db.orders,
      o.id = 1
      ∧ o.subtotalCents = (itemsMain.map (fun it => it.unit_price_cents * it.qty)).sum
      ∧ o.shippingCents = shipCentsOf bodyMain
      ∧ o.totalCents = max 0 (o.subtotalCents + o.shippingCents - o.discountCents)
      ∧ (GoodCart itemsMain → IsIntQ o.shippingCents → IsIntQ o.discountCents →
          IsIntQ o.subtotalCents ∧ IsIntQ o.totalCents) :=
  c1_order_totals collabOk dbOwned userMain bodyMain itemsMain 1 "pref1" "ip" (by rfl) (by rfl)

/-- C9: the persisted order totals and order-item rows are functions of the
resolved items, the request, and the coupon result alone, computed before
discount allocation runs: each order-item row stores the resolved quantity
and pre-allocation unit price, and the order row stores the pre-allocation
totals. -/
theorem c9_persisted_rows_frame (c : Collab) (db : DB) (u : User) (b : Body)
    (ris : List ResolvedItem) (oid : ℤ) (pid ip : String)
    (hres : resolveItems db.products (b.items.getD []) = .ok ris)
    (hok : (createOrder c db u b).resp = .success oid pid ip) :
    (createOrder c db u b).db.orderItems
      = db.orderItems ++ ris.map (orderItemRowOf (nextOrderId db))
    ∧ (∀ it : ResolvedItem, (orderItemRowOf (nextOrderId db) it).quantity = it.qty
        ∧ (orderItemRowOf (nextOrderId db) it).unitPriceCents = it.unit_price_cents)
    ∧ ∃ discount : ℚ, couponResult c b (subtotalOf ris) = .ok discount
        ∧ ∃ o ∈ (createOrder c db u b).db.orders,
            o.subtotalCents = subtotalOf ris ∧ o.shippingCents = shipCentsOf b
            ∧ o.discountCents = discount
            ∧ o.totalCents = totalCentsOf (subtotalOf ris) (shipCentsOf b) discount := by
  rcases createOrder_cases c db u b with ⟨e', s', hr, _⟩ |
    ⟨items, address, discount, pref, hreq, hres', haddr, hcoup, hpref, heq⟩
  · rw [hr] at hok
    cases hok
  · rw [hres] at hres'
    injection hres' with hitems
    subst hitems
    have hrowid : (orderRowOf db u b address (subtotalOf ris) discount).id = nextOrderId db := rfl
    refine ⟨?_, fun it => ⟨rfl, rfl⟩, discount, hcoup, ?_⟩
    · rw [heq]
      show (commitDb db _ ris pref.preferenceId).orderItems = _
      unfold commitDb setPreference
      rw [persistItems_orderItems]
      rfl
    · have horders : (createOrder c db u b).db.orders
          = (db.orders ++ [orderRowOf db u b address (subtotalOf ris) discount]).map
              (setPreferenceRow (nextOrderId db) pref.preferenceId) := by
        rw [heq]
        show (commitDb db _ ris pref.preferenceId).orders = _
        unfold commitDb setPreference
        rw [persistItems_orders]
        rfl
      refine ⟨setPreferenceRow (nextOrderId db) pref.preferenceId
        (orderRowOf db u b address (subtotalOf ris) discount), ?_, ?_, ?_, ?_, ?_⟩
      · rw [horders]
        exact List.mem_map_of_mem _ (by simp)
      · unfold setPreferenceRow
        rw [if_pos hrowid]
        rfl
      · unfold setPreferenceRow
        rw [if_pos hrowid]
        rfl
      · unfold setPreferenceRow
        rw [if_pos hrowid]
        rfl
      · unfold setPreferenceRow
        rw [if_pos hrowid]
        rfl

/-- Witness for C9 at the spec's scenario. -/
theorem c9_persisted_rows_frame_witness :
    (createOrder collabOk dbOwned userMain bodyMain).db.orderItems
      = dbOwned.orderItems ++ itemsMain.map (orderItemRowOf (nextOrderId dbOwned))
    ∧ ∃ discount : ℚ, couponResult collabOk bodyMain (subtotalOf itemsMain) = .ok discount
        ∧ ∃ o ∈ (createOrder collabOk dbOwned userMain bodyMain).db.orders,
            o.subtotalCents = subtotalOf itemsMain ∧ o.shippingCents = shipCentsOf bodyMain
            ∧ o.discountCents = discount
            ∧ o.totalCents = totalCentsOf (subtotalOf itemsMain) (shipCentsOf bodyMain) discount := by
  obtain ⟨h1, _, h3⟩ := c9_persisted_rows_frame collabOk dbOwned userMain bodyMain itemsMain
    1 "pref1" "ip" (by rfl) (by rfl)
  exact ⟨h1, h3⟩

/-- C10 (amended): when the required fields are present and the cart items
resolve, a request whose `address_id` names an existing address owned by a
different user fails with `AddressNotFound` (HTTP 404) and creates no order
(database unchanged, no external call). -/
theorem c10_foreign_address_amended (c : Collab) (db : DB) (u : User) (b : Body) (aid : ℚ)
    (ris : List ResolvedItem)
    (hreq : requiredPresent b = true)
    (hres : resolveItems db.products (b.items.getD []) = .ok ris)
    (haid : b.address_id = some aid)
    (hex : ∃ a ∈ db.addresses, (a.id : ℚ) = aid)
    (hforeign : ∀ a ∈ db.addresses, (a.id : ℚ) = aid → a.userId ≠ u.id) :
    (createOrder c db u b).resp = .failure 404 .addressNotFound
    ∧ (createOrder c db u b).db = db ∧ (createOrder c db u b).calls = [] := by
  have hfind : findAddress db b u = none := by
    unfold findAddress
    rw [List.find?_eq_none]
    intro a ha
    simp only [haid, Option.getD_some, Bool.and_eq_true, decide_eq_true_eq]
    rintro ⟨h1, h2⟩
    exact hforeign a ha h1 h2
  refine ⟨?_, ?_, ?_⟩ <;> simp [createOrder, hreq, hres, hfind]

/-- Witness for the amended C10 at concrete inputs: address 7 belongs to
user 99, the requester is user 1. -/
theorem c10_foreign_address_amended_witness :
    (createOrder collabOk dbForeign userMain bodyMain).resp = .failure 404 .addressNotFound
    ∧ (createOrder collabOk dbForeign userMain bodyMain).db = dbForeign
    ∧ (createOrder collabOk dbForeign userMain bodyMain).calls = [] :=
  c10_foreign_address_amended collabOk dbForeign userMain bodyMain 7 itemsMain rfl (by rfl) rfl
    ⟨{ id := 7, userId := 99 }, by simp [dbForeign], by decide⟩ (by decide)

/-- Counterexample to C10 as stated: a request whose `address_id` names an
address of another user but whose items array is empty fails earlier in item
resolution with `InvalidInput` (HTTP 400), not with `AddressNotFound`
(HTTP 404), because `resolveItems` runs before the address lookup. -/
theorem c10_foreign_address_counterexample :
    (∃ a ∈ dbForeign.addresses, (a.id : ℚ) = 7 ∧ a.userId ≠ userMain.id)
    ∧ bodyEmptyItems.address_id = some 7
    ∧ (createOrder collabOk dbForeign userMain bodyEmptyItems).resp = .failure 400 .invalidInput
    ∧ (createOrder collabOk dbForeign userMain bodyEmptyItems).resp
        ≠ .failure 404 .addressNotFound := by
  refine ⟨⟨{ id := 7, userId := 99 }, by simp [dbForeign], by decide, by decide⟩, rfl, by rfl, ?_⟩
  intro hcon
  rw [show (createOrder collabOk dbForeign userMain bodyEmptyItems).resp
      = .failure 400 .invalidInput from by rfl] at hcon
  cases hcon

theorem round_nonneg_of {x : ℚ} (h : 0 ≤ x) : 0 ≤ round x := by
  rw [round_eq]
  refine Int.le_floor.mpr ?_
  push_cast
  linarith

theorem goodMP_repr (it : MPItem) (h : GoodMP it) :
    ∃ (cq m : ℤ), it.unit_price = (cq : ℚ) / 100 ∧ it.quantity = (m : ℚ) ∧ 0 < m
      ∧ lineTotalCents it = cq * m ∧ specLineSub it = ((cq * m : ℤ) : ℚ) := by
  obtain ⟨h1, h2, h3⟩ := h
  obtain ⟨cq, hcq⟩ := (isIntQ_iff _).mp h1
  obtain ⟨m, hmm⟩ := (isIntQ_iff _).mp h2
  have hm : 0 < m := by
    rw [hmm] at h3
    exact_mod_cast h3
  have hu : it.unit_price = (cq : ℚ) / 100 := by
    rw [eq_div_iff (by norm_num : (100:ℚ) ≠ 0)]
    exact hcq
  have harg : it.unit_price * 100 * it.quantity = ((cq * m : ℤ) : ℚ) := by
    rw [hcq, hmm]
    push_cast
    ring
  refine ⟨cq, m, hu, hmm, hm, ?_, ?_⟩
  · unfold lineTotalCents
    rw [harg, round_intCast]
  · unfold specLineSub
    rw [hcq, round_intCast, hmm]
    push_cast
    ring

/-- The code's allocation loop coincides, line by line, with the spec's
description of it on any line list whose unit prices are whole numbers of
minor units and whose quantities are positive integers (which is what
`buildMpItems` produces), for any nonnegative remaining discount. -/
theorem allocateItems_eq_specAlloc :
    ∀ (l : List MPItem) (r : ℚ), 0 ≤ r → (∀ it ∈ l, GoodMP it) →
      allocateItems r l = specAllocItems r l := by
  intro l
  induction l with
  | nil => intro r _ _; rfl
  | cons it rest ih =>
    intro r hr hg
    obtain ⟨cq, m, hu, hq, hm, hlt, hls⟩ := goodMP_repr it (hg it (List.mem_cons_self it rest))
    have hrest : ∀ x ∈ rest, GoodMP x := fun x hx => hg x (List.mem_cons_of_mem it hx)
    rw [allocateItems, specAllocItems]
    by_cases hr0 : r ≤ 0
    · have hr' : r = 0 := le_antisymm hr0 hr
      subst hr'
      rw [if_pos hr0]
      by_cases hpos : 0 < specLineSub it
      · rw [if_pos hpos]
        have hcqm : (0:ℚ) < ((cq * m : ℤ) : ℚ) := hls ▸ hpos
        have hcqm' : 0 < cq * m := by exact_mod_cast hcqm
        have hcq : 0 < cq := by
          by_contra hc
          push_neg at hc
          nlinarith
        have hmin : min (specLineSub it) 0 = 0 := min_eq_right (le_of_lt hpos)
        have hdivq : ((cq * m : ℤ) : ℚ) / (m : ℚ) = (cq : ℚ) := by
          push_cast
          rw [mul_div_assoc, div_self (by exact_mod_cast hm.ne' : ((m : ℚ)) ≠ 0), mul_one]
        have hprice : specNewPrice it 0 = it.unit_price := by
          unfold specNewPrice
          rw [hmin, sub_zero, hls, hq, hdivq, round_intCast]
          rw [max_eq_right (by positivity : (0:ℚ) ≤ (cq : ℚ) / 100)]
          exact hu.symm
        rw [hprice, hmin, sub_zero]
        congr 1
        exact ih 0 le_rfl hrest
      · rw [if_neg hpos]
        congr 1
        exact ih 0 le_rfl hrest
    · push_neg at hr0
      by_cases hl0 : lineTotalCents it ≤ 0
      · rw [if_neg (not_le.mpr hr0), if_pos hl0]
        have hcqm : cq * m ≤ 0 := by rw [← hlt]; exact hl0
        have hnpos : ¬ 0 < specLineSub it := by
          rw [hls]
          push_neg
          exact_mod_cast hcqm
        rw [if_neg hnpos]
        congr 1
        exact ih r (le_of_lt hr0) hrest
      · push_neg at hl0
        rw [if_neg (not_le.mpr hr0), if_neg (not_le.mpr hl0)]
        have hpos : 0 < specLineSub it := by
          rw [hls]
          rw [hlt] at hl0
          exact_mod_cast hl0
        rw [if_pos hpos]
        have hded : allocDeduction it r = min (specLineSub it) r := by
          unfold allocDeduction
          rw [hlt, hls]
        have hprice : allocNewPrice it r = specNewPrice it r := by
          unfold allocNewPrice specNewPrice
          rw [hlt, hded, hls]
        rw [hprice, hded]
        congr 1
        refine ih (r - min (specLineSub it) r) ?_ hrest
        have := min_le_right (specLineSub it) r
        linarith

theorem goodMP_build (items : List ResolvedItem) (ship : ℚ) (nm : Option String)
    (hg : GoodCart items) (hs : IsIntQ ship) :
    ∀ it ∈ buildMpItems items ship nm, GoodMP it := by
  intro it hit
  unfold buildMpItems at hit
  rcases List.mem_append.mp hit with hmem | hmem
  · obtain ⟨x, hx, rfl⟩ := List.mem_map.mp hmem
    obtain ⟨hp, hq, hq0⟩ := hg x hx
    refine ⟨?_, hq, hq0⟩
    show IsIntQ (x.unit_price_cents / 100 * 100)
    rw [div_mul_cancel₀ _ (by norm_num : (100:ℚ) ≠ 0)]
    exact hp
  · by_cases hs0 : 0 < ship
    · rw [if_pos hs0] at hmem
      simp only [List.mem_singleton] at hmem
      subst hmem
      refine ⟨?_, (isIntQ_iff _).mpr ⟨1, by norm_num [shipLineOf]⟩, by norm_num [shipLineOf]⟩
      show IsIntQ (ship / 100 * 100)
      rw [div_mul_cancel₀ _ (by norm_num : (100:ℚ) ≠ 0)]
      exact hs
    · rw [if_neg hs0] at hmem
      simp at hmem

/-- C2: with a positive discount, the payment lines submitted by
`createOrder` (one per resolved item plus a shipping line when shipping is
positive, in build order) are exactly the spec-described greedy allocation:
running remaining discount, `min(line subtotal, remaining)` deducted per
positive line, price recomputed as `round((line subtotal − deduction) /
quantity) / 100` floored at zero, and zero further deduction once the
remaining discount is exhausted. -/
theorem c2_greedy_allocation (items : List ResolvedItem) (b : Body) (d : ℚ)
    (hg : GoodCart items) (hship : IsIntQ (shipCentsOf b)) (hd : 0 < d) :
    mpFinalOf items b d = specAllocItems d (mpItemsOf items b) := by
  unfold mpFinalOf
  by_cases hne : mpItemsOf items b = []
  · rw [hne]
    simp [specAllocItems, allocateItems]
  · rw [if_pos ⟨hd, hne⟩]
    exact allocateItems_eq_specAlloc (mpItemsOf items b) d (le_of_lt hd)
      (goodMP_build items (shipCentsOf b) _ hg hship)

/-- Witness for C2 at the spec's scenario (qty 2 at 10.00, shipping 5.00,
discount 3.00). -/
theorem c2_greedy_allocation_witness :
    GoodCart itemsMain ∧ IsIntQ (shipCentsOf bodyMain) ∧ (0:ℚ) < 300
    ∧ mpFinalOf itemsMain bodyMain 300 = specAllocItems 300 (mpItemsOf itemsMain bodyMain) :=
  ⟨by decide, by decide, by decide,
    c2_greedy_allocation itemsMain bodyMain 300 (by decide) (by decide) (by decide)⟩

theorem sumMinor_cons (x : MPItem) (l : List MPItem) :
    sumMinor (x :: l) = ((round (x.unit_price * 100) : ℤ) : ℚ) * x.quantity + sumMinor l := by
  simp [sumMinor]

theorem qtySum_cons (x : MPItem) (l : List MPItem) :
    qtySum (x :: l) = x.quantity + qtySum l := by
  simp [qtySum]

theorem sumMinor_nonneg (l : List MPItem) (h : ∀ it ∈ l, GoodMPnn it) : 0 ≤ sumMinor l := by
  induction l with
  | nil => simp [sumMinor]
  | cons it rest ih =>
    rw [sumMinor_cons]
    have hit := h it (List.mem_cons_self it rest)
    have h1 : 0 ≤ it.unit_price * 100 := mul_nonneg hit.2 (by norm_num)
    have h2 : (0:ℚ) ≤ ((round (it.unit_price * 100) : ℤ) : ℚ) := by
      exact_mod_cast round_nonneg_of h1
    have h3 : 0 ≤ it.quantity := le_of_lt hit.1.2.2
    have h4 := ih (fun x hx => h x (List.mem_cons_of_mem it hx))
    nlinarith [mul_nonneg h2 h3]

theorem qtySum_nonneg (l : List MPItem) (h : ∀ it ∈ l, GoodMPnn it) : 0 ≤ qtySum l := by
  induction l with
  | nil => simp [qtySum]
  | cons it rest ih =>
    rw [qtySum_cons]
    have h3 : 0 ≤ it.quantity := le_of_lt (h it (List.mem_cons_self it rest)).1.2.2
    have h4 := ih (fun x hx => h x (List.mem_cons_of_mem it hx))
    linarith

theorem allocateItems_nonpos (l : List MPItem) : ∀ r : ℚ, r ≤ 0 → allocateItems r l = l := by
  induction l with
  | nil => intro r _; rfl
  | cons it rest ih =>
    intro r hr
    rw [allocateItems, if_pos hr, ih r hr]

theorem min_split (r L S : ℚ) (hr : 0 ≤ r) (hL : 0 < L) (hS : 0 ≤ S) :
    min r (L + S) = min L r + min (r - min L r) S := by
  rcases le_total r L with h | h
  · rw [min_eq_right h, sub_self, min_eq_left hS, min_eq_left (by linarith : r ≤ L + S)]
    ring
  · rw [min_eq_left h]
    rcases le_total (r - L) S with h2 | h2
    · rw [min_eq_left h2, min_eq_left (by linarith : r ≤ L + S)]
      ring
    · rw [min_eq_right h2, min_eq_right (by linarith : L + S ≤ r)]

/-- Core rounding bound for the allocation loop: on a good line list, the
post-allocation sum of line subtotals in minor units differs from the ideal
post-discount sum (`sum − min(remaining, sum)`) by at most half the total
quantity. -/
theorem alloc_sumMinor_bound :
    ∀ (l : List MPItem) (r : ℚ), 0 ≤ r → (∀ it ∈ l, GoodMPnn it) →
      |sumMinor (allocateItems r l) - (sumMinor l - min r (sumMinor l))| ≤ qtySum l / 2 := by
  intro l
  induction l with
  | nil =>
    intro r hr _
    simp [allocateItems, sumMinor, qtySum, min_eq_right hr]
  | cons it rest ih =>
    intro r hr hg
    have hitnn := hg it (List.mem_cons_self it rest)
    obtain ⟨cq, m, hu, hq, hm, hlt, hls⟩ := goodMP_repr it hitnn.1
    have hrest : ∀ x ∈ rest, GoodMPnn x := fun x hx => hg x (List.mem_cons_of_mem it hx)
    have hS' : 0 ≤ sumMinor rest := sumMinor_nonneg rest hrest
    have hQ' : 0 ≤ qtySum rest := qtySum_nonneg rest hrest
    have hmq : (0:ℚ) < it.quantity := hitnn.1.2.2
    have hcontrib : ((round (it.unit_price * 100) : ℤ) : ℚ) * it.quantity
        = ((cq * m : ℤ) : ℚ) := hls
    rw [allocateItems]
    by_cases hr0 : r ≤ 0
    · rw [if_pos hr0]
      have hr' : r = 0 := le_antisymm hr0 hr
      subst hr'
      rw [allocateItems_nonpos rest 0 le_rfl]
      have hS : 0 ≤ sumMinor (it :: rest) := sumMinor_nonneg _ hg
      rw [min_eq_left hS]
      have hQ : 0 ≤ qtySum (it :: rest) := qtySum_nonneg _ hg
      simp only [sub_zero, sub_self, abs_zero]
      linarith
    · push_neg at hr0
      by_cases hl0 : lineTotalCents it ≤ 0
      · rw [if_neg (not_le.mpr hr0), if_pos hl0]
        rw [hlt] at hl0
        have hcq : 0 ≤ cq := by
          by_contra hc
          push_neg at hc
          have h1 : ((cq:ℚ)) < 0 := by exact_mod_cast hc
          have h2 : (cq:ℚ)/100 < 0 := div_neg_of_neg_of_pos h1 (by norm_num)
          have h3 : 0 ≤ (cq:ℚ)/100 := hu ▸ hitnn.2
          linarith
        have hL0 : cq * m = 0 := le_antisymm hl0 (mul_nonneg hcq (le_of_lt hm))
        have hcast : ((cq * m : ℤ) : ℚ) = 0 := by
          rw [hL0]
          norm_num
        rw [sumMinor_cons, sumMinor_cons, hcontrib, hcast, qtySum_cons]
        simp only [zero_add]
        refine le_trans (ih r (le_of_lt hr0) hrest) ?_
        linarith
      · push_neg at hl0
        rw [if_neg (not_le.mpr hr0), if_neg (not_le.mpr hl0)]
        have hLpos : (0:ℚ) < ((cq * m : ℤ) : ℚ) := by
          rw [hlt] at hl0
          exact_mod_cast hl0
        have hded_le : allocDeduction it r ≤ ((cq * m : ℤ) : ℚ) := by
          unfold allocDeduction
          rw [hlt]
          exact min_le_left _ _
        have hded_nonneg : 0 ≤ allocDeduction it r := by
          unfold allocDeduction
          rw [hlt]
          exact le_min (le_of_lt hLpos) (le_of_lt hr0)
        have hnewnn : 0 ≤ ((cq * m : ℤ) : ℚ) - allocDeduction it r := by linarith
        have hknn : 0 ≤ round ((((cq * m : ℤ) : ℚ) - allocDeduction it r) / it.quantity) :=
          round_nonneg_of (div_nonneg hnewnn (le_of_lt hmq))
        have hknnq : (0:ℚ) ≤ ((round ((((cq * m : ℤ) : ℚ) - allocDeduction it r)
            / it.quantity) : ℤ) : ℚ) := by exact_mod_cast hknn
        have hprice_eq : allocNewPrice it r
            = ((round ((((cq * m : ℤ) : ℚ) - allocDeduction it r) / it.quantity) : ℤ) : ℚ)
              / 100 := by
          unfold allocNewPrice
          rw [hlt]
          exact max_eq_right (div_nonneg hknnq (by norm_num))
        have hhead : ((round ((allocNewPrice it r) * 100) : ℤ) : ℚ) * it.quantity
            = ((round ((((cq * m : ℤ) : ℚ) - allocDeduction it r) / it.quantity) : ℤ) : ℚ)
              * it.quantity := by
          rw [hprice_eq, div_mul_cancel₀ _ (by norm_num : (100:ℚ) ≠ 0), round_intCast]
        have herr : |((round ((((cq * m : ℤ) : ℚ) - allocDeduction it r) / it.quantity) : ℤ) : ℚ)
              * it.quantity - (((cq * m : ℤ) : ℚ) - allocDeduction it r)|
            ≤ it.quantity / 2 := by
          have h1 : |(((cq * m : ℤ) : ℚ) - allocDeduction it r) / it.quantity
              - ((round ((((cq * m : ℤ) : ℚ) - allocDeduction it r) / it.quantity) : ℤ) : ℚ)|
              ≤ 1 / 2 := abs_sub_round _
          have h2 : ((round ((((cq * m : ℤ) : ℚ) - allocDeduction it r) / it.quantity) : ℤ) : ℚ)
                * it.quantity - (((cq * m : ℤ) : ℚ) - allocDeduction it r)
              = -(((((cq * m : ℤ) : ℚ) - allocDeduction it r) / it.quantity
                - ((round ((((cq * m : ℤ) : ℚ) - allocDeduction it r) / it.quantity) : ℤ) : ℚ))
                  * it.quantity) := by
            field_simp
            ring
          rw [h2, abs_neg, abs_mul, abs_of_pos hmq]
          calc |(((cq * m : ℤ) : ℚ) - allocDeduction it r) / it.quantity
                - ((round ((((cq * m : ℤ) : ℚ) - allocDeduction it r) / it.quantity) : ℤ) : ℚ)|
                * it.quantity
              ≤ (1/2) * it.quantity := mul_le_mul_of_nonneg_right h1 (le_of_lt hmq)
            _ = it.quantity / 2 := by ring
        have hded_ler : allocDeduction it r ≤ r := by
          unfold allocDeduction
          rw [hlt]
          exact min_le_right _ _
        have hih := ih (r - allocDeduction it r) (by linarith) hrest
        have hsplit : min r (((cq * m : ℤ) : ℚ) + sumMinor rest)
            = allocDeduction it r + min (r - allocDeduction it r) (sumMinor rest) := by
          have h := min_split r (((cq * m : ℤ) : ℚ)) (sumMinor rest) hr hLpos hS'
          unfold allocDeduction
          rw [hlt]
          exact h
        rw [sumMinor_cons, sumMinor_cons, hcontrib, qtySum_cons, hsplit]
        have hproj : ((round (({ it with unit_price := allocNewPrice it r } : MPItem).unit_price
              * 100) : ℤ) : ℚ) * ({ it with unit_price := allocNewPrice it r } : MPItem).quantity
            = ((round ((((cq * m : ℤ) : ℚ) - allocDeduction it r) / it.quantity) : ℤ) : ℚ)
              * it.quantity := hhead
        rw [hproj]
        have hring : ((round ((((cq * m : ℤ) : ℚ) - allocDeduction it r) / it.quantity) : ℤ) : ℚ)
              * it.quantity + sumMinor (allocateItems (r - allocDeduction it r) rest)
              - (((cq * m : ℤ) : ℚ) + sumMinor rest
                - (allocDeduction it r + min (r - allocDeduction it r) (sumMinor rest)))
            = (((round ((((cq * m : ℤ) : ℚ) - allocDeduction it r) / it.quantity) : ℤ) : ℚ)
                * it.quantity - (((cq * m : ℤ) : ℚ) - allocDeduction it r))
              + (sumMinor (allocateItems (r - allocDeduction it r) rest)
                - (sumMinor rest - min (r - allocDeduction it r) (sumMinor rest))) := by
          ring
        rw [hring]
        refine le_trans (abs_add _ _) ?_
        linarith

theorem sumMinor_append (l1 l2 : List MPItem) :
    sumMinor (l1 ++ l2) = sumMinor l1 + sumMinor l2 := by
  simp [sumMinor]

theorem sumMinor_map_items :
    ∀ items : List ResolvedItem, GoodCart items →
      sumMinor (items.map mpOfResolved) = subtotalOf items := by
  intro items
  induction items with
  | nil =>
    intro _
    simp [sumMinor, subtotalOf]
  | cons it rest ih =>
    intro hg
    have hit := hg it (List.mem_cons_self it rest)
    obtain ⟨n, hn⟩ := (isIntQ_iff _).mp hit.1
    rw [List.map_cons, sumMinor_cons]
    have hhead : ((round ((mpOfResolved it).unit_price * 100) : ℤ) : ℚ)
          * (mpOfResolved it).quantity
        = it.unit_price_cents * it.qty := by
      show ((round (it.unit_price_cents / 100 * 100) : ℤ) : ℚ) * it.qty
          = it.unit_price_cents * it.qty
      rw [div_mul_cancel₀ _ (by norm_num : (100:ℚ) ≠ 0), hn, round_intCast]
    rw [hhead, ih (fun x hx => hg x (List.mem_cons_of_mem it hx))]
    rw [subtotalOf_eq, subtotalOf_eq, List.map_cons, List.sum_cons]

theorem sumMinor_build (items : List ResolvedItem) (ship : ℚ) (nm : Option String)
    (hg : GoodCart items) (hs : 0 ≤ ship) (hsi : IsIntQ ship) :
    sumMinor (buildMpItems items ship nm) = subtotalOf items + ship := by
  unfold buildMpItems
  rw [sumMinor_append, sumMinor_map_items items hg]
  by_cases h0 : 0 < ship
  · rw [if_pos h0]
    obtain ⟨n, rfl⟩ := (isIntQ_iff _).mp hsi
    rw [sumMinor_cons]
    show subtotalOf items + (((round ((n:ℚ) / 100 * 100) : ℤ) : ℚ) * 1 + sumMinor [])
        = subtotalOf items + (n:ℚ)
    rw [div_mul_cancel₀ _ (by norm_num : (100:ℚ) ≠ 0), round_intCast]
    simp [sumMinor]
  · rw [if_neg h0]
    have hz : ship = 0 := le_antisymm (not_lt.mp h0) hs
    simp [sumMinor, hz]

/-- C3 (corrected): with a positive discount on a good cart, the sum of
payment-line subtotals in minor units stays within half the total quantity
of the grand total (the per-line rounding error is up to quantity/2, not 1). -/
theorem c3_rounding_amended (items : List ResolvedItem) (b : Body) (d : ℚ)
    (hg : GoodCart items) (hnn : ∀ it ∈ items, 0 ≤ it.unit_price_cents)
    (hsi : IsIntQ (shipCentsOf b)) (hs : 0 ≤ shipCentsOf b) (hd : 0 < d) :
    |sumMinor (mpFinalOf items b d) - totalCentsOf (subtotalOf items) (shipCentsOf b) d|
      ≤ qtySum (mpItemsOf items b) / 2 := by
  have hgood : ∀ it ∈ mpItemsOf items b, GoodMPnn it := by
    intro it hit
    refine ⟨goodMP_build items (shipCentsOf b) _ hg hsi it hit, ?_⟩
    unfold mpItemsOf buildMpItems at hit
    rcases List.mem_append.mp hit with hmem | hmem
    · obtain ⟨x, hx, rfl⟩ := List.mem_map.mp hmem
      exact div_nonneg (hnn x hx) (by norm_num)
    · by_cases h0 : 0 < shipCentsOf b
      · rw [if_pos h0] at hmem
        simp only [List.mem_singleton] at hmem
        subst hmem
        exact div_nonneg hs (by norm_num)
      · rw [if_neg h0] at hmem
        simp at hmem
  have hS : sumMinor (mpItemsOf items b) = subtotalOf items + shipCentsOf b :=
    sumMinor_build items (shipCentsOf b) _ hg hs hsi
  have hT : totalCentsOf (subtotalOf items) (shipCentsOf b) d
      = sumMinor (mpItemsOf items b) - min d (sumMinor (mpItemsOf items b)) := by
    unfold totalCentsOf
    rcases le_total d (subtotalOf items + shipCentsOf b) with h | h
    · rw [hS, min_eq_left h, max_eq_right (by linarith)]
    · rw [hS, min_eq_right h, max_eq_left (by linarith)]
      ring
  unfold mpFinalOf
  by_cases hne : mpItemsOf items b = []
  · rw [if_neg (by rw [hne]; simp)]
    rw [hT, hne]
    have hz : sumMinor ([] : List MPItem) = 0 := rfl
    rw [hz, min_eq_right (le_of_lt hd)]
    simp [qtySum]
  · rw [if_pos ⟨hd, hne⟩, hT]
    exact alloc_sumMinor_bound (mpItemsOf items b) d (le_of_lt hd) hgood

/-- Witness for the amended C3 at the spec's scenario. -/
theorem c3_rounding_amended_witness :
    GoodCart itemsMain ∧ (∀ it ∈ itemsMain, 0 ≤ it.unit_price_cents)
    ∧ IsIntQ (shipCentsOf bodyMain) ∧ 0 ≤ shipCentsOf bodyMain ∧ (0:ℚ) < 300
    ∧ |sumMinor (mpFinalOf itemsMain bodyMain 300)
        - totalCentsOf (subtotalOf itemsMain) (shipCentsOf bodyMain) 300|
        ≤ qtySum (mpItemsOf itemsMain bodyMain) / 2 :=
  ⟨by decide, by decide, by decide, by decide, by decide,
    c3_rounding_amended itemsMain bodyMain 300 (by decide) (by decide) (by decide) (by decide)
      (by decide)⟩

/-- Counterexample to C3 as stated: one line of quantity 10 at 1.00 each,
no shipping, discount 0.15: the allocated line rounds to 0.99 per unit, so
the line sum is 9.90 against a grand total of 9.85 — off by 5 minor units
with only 1 payment line. -/
theorem c3_rounding_counterexample :
    ¬ (|sumMinor (mpFinalOf itemsTen bodyEmptyItems 15)
        - totalCentsOf (subtotalOf itemsTen) (shipCentsOf bodyEmptyItems) 15|
        ≤ ((mpFinalOf itemsTen bodyEmptyItems 15).length : ℚ)) := by
  have h1 : mpItemsOf itemsTen bodyEmptyItems = [mpTenLine] := by
    unfold mpItemsOf buildMpItems itemsTen bodyEmptyItems prodTen shipCentsOf mpOfResolved
      mpTenLine
    norm_num [firstTruthyQ, truthyQ, selNone]
  have hlt1 : lineTotalCents mpTenLine = 1000 := by
    unfold lineTotalCents mpTenLine
    norm_num [round_eq]
  have hded1 : allocDeduction mpTenLine 15 = 15 := by
    unfold allocDeduction
    rw [hlt1]
    norm_num
  have hprice1 : allocNewPrice mpTenLine 15 = 99 / 100 := by
    unfold allocNewPrice
    rw [hlt1, hded1]
    unfold mpTenLine
    rw [show (((1000:ℤ):ℚ) - 15) / 10 = 197/2 from by norm_num]
    rw [show round ((197:ℚ)/2) = 99 from by norm_num [round_eq]]
    norm_num
  have h2 : mpFinalOf itemsTen bodyEmptyItems 15 = [mpTenLineAfter] := by
    unfold mpFinalOf
    rw [h1, if_pos ⟨by norm_num, by simp⟩]
    rw [allocateItems, if_neg (by norm_num), if_neg (by rw [hlt1]; norm_num)]
    rw [allocateItems, hprice1]
    rfl
  have h3 : sumMinor (mpFinalOf itemsTen bodyEmptyItems 15) = 990 := by
    rw [h2, sumMinor_cons]
    show ((round ((99:ℚ) / 100 * 100) : ℤ) : ℚ) * 10 + sumMinor [] = 990
    rw [div_mul_cancel₀ _ (by norm_num : (100:ℚ) ≠ 0)]
    rw [show round ((99:ℚ)) = 99 from by norm_num [round_eq]]
    norm_num [sumMinor]
  have h4 : subtotalOf itemsTen = 1000 := by
    unfold subtotalOf itemsTen
    norm_num
  have h5 : shipCentsOf bodyEmptyItems = 0 := rfl
  have h6 : totalCentsOf (subtotalOf itemsTen) (shipCentsOf bodyEmptyItems) 15 = 985 := by
    rw [h4, h5]
    unfold totalCentsOf
    norm_num
  have h7 : (mpFinalOf itemsTen bodyEmptyItems 15).length = 1 := by
    rw [h2]
    rfl
  rw [h3, h6, h7]
  norm_num

end Checkout
